import Mathlib

/-!
Verification of the git-monitoring repository against its specification.

The Go source is shallowly embedded: Go strings used as repository
identifiers become `List Char` (Go `strings.Split` on the one-byte
separator "/" is byte-wise splitting, and "/" is ASCII), timestamps become
`Int` (only `Before` comparisons and equality are used by the code, and
Go's `time.Time` ordering is total; the PR checker's hour-granularity
window is folded into the cutoff), the absent/zero `mergedAt` timestamp
becomes `Option Int`, and every fallible API call becomes an explicit
`Except String` value supplied as an oracle argument.  The number of page
fetches issued and the list of PRs whose reviews were fetched are carried
in the scan state as observations of the calls the Go code makes.
-/

namespace GitMonitor

namespace Common

/-- Go `strings.Split(s, sep)` for a one-character separator, on the
character-list embedding of Go strings (`pkg/tools/common/github.go`,
`ParseRepository` uses `strings.Split(repository, "/")`). -/
def splitGo (sep : Char) : List Char → List (List Char)
  | [] => [[]]
  | c :: rest =>
    match splitGo sep rest with
    | [] => [[]]
    | seg :: segs => if c = sep then [] :: seg :: segs else (c :: seg) :: segs

/-- `common.ParseRepository`: splits an "owner/repo" string on "/" and
succeeds exactly when the split has two parts
(`pkg/tools/common/github.go` lines 57-63). -/
def ParseRepository (repository : List Char) : List Char × List Char × Bool :=
  match splitGo '/' repository with
  | [owner, repo] => (owner, repo, true)
  | _ => ([], [], false)

/-- Joining split segments with the separator; used to characterise
`splitGo` as the unique decomposition of its input. -/
def joinSep (sep : Char) : List (List Char) → List Char
  | [] => []
  | [seg] => seg
  | seg :: segs => seg ++ sep :: joinSep sep segs

/-- The `Core` part of the rate-limit status reply used by
`ExecuteWithRateLimit` for its low-quota warning; `none` at the call site
models a nil `rateLimits.Core`. -/
structure RateLimitCore where
  Remaining : Int
  Limit : Int
deriving DecidableEq

/-- Observable outcome of one `ExecuteWithRateLimit` call: the value the
caller receives, whether the wrapped operation ran, and whether the
low-quota warning was logged. -/
structure RLOutcome (α : Type) where
  result : Except String α
  operationInvoked : Bool
  warningLogged : Bool

/-- `common.GitHubClient.ExecuteWithRateLimit`
(`pkg/tools/common/github.go` lines 116-131).  `waitErr` is the outcome
of `RateLimiter.Wait` (`some e` = the wait failed, e.g. cancellation);
`operation` is the value the wrapped call `f` produces when invoked;
`rateLimitsQuery` is the best-effort post-call `Client.RateLimits` reply
(`Except.ok none` models a nil `Core` field).  The warning threshold in
the source is `Remaining < 100`. -/
def ExecuteWithRateLimit {α : Type} (waitErr : Option String)
    (operation : Except String α)
    (rateLimitsQuery : Except String (Option RateLimitCore)) : RLOutcome α :=
  match waitErr with
  | some e => { result := Except.error e, operationInvoked := false, warningLogged := false }
  | none =>
    { result := operation
      operationInvoked := true
      warningLogged :=
        match rateLimitsQuery with
        | Except.ok (some core) => decide (core.Remaining < 100)
        | _ => false }

end Common

namespace PRChecker

/-- One pull-request review as consumed by `isPRApproved`: reviewer login
(`review.GetUser().GetLogin()`), review state (`review.GetState()`), and
submission time (used by the source only for debug logging). -/
structure Review where
  reviewer : String
  state : String
  submittedAt : Int
deriving DecidableEq

/-- Insert-or-update on the association-list model of the Go map
`latestReviewByReviewer`; replaces the binding when the key is present,
appends otherwise. -/
def updateReview (m : List (String × String)) (reviewer state : String) :
    List (String × String) :=
  if m.any (fun p => p.1 = reviewer) then
    m.map (fun p => if p.1 = reviewer then (reviewer, state) else p)
  else m ++ [(reviewer, state)]

/-- One iteration of the review loop in `isPRApproved`
(`pkg/tools/prchecker/pr_checker.go` lines 408-427): skip reviews with
empty state, empty reviewer, or reviewer "ghost"; record only APPROVED
and CHANGES_REQUESTED states, latest occurrence winning. -/
def trackStep (m : List (String × String)) (rv : Review) : List (String × String) :=
  if rv.state = "" ∨ rv.reviewer = "" ∨ rv.reviewer = "ghost" then m
  else if rv.state = "APPROVED" ∨ rv.state = "CHANGES_REQUESTED" then
    updateReview m rv.reviewer rv.state
  else m

/-- The `latestReviewByReviewer` map of `isPRApproved` after processing
all reviews in submission order. -/
def latestReviewByReviewer (reviews : List Review) : List (String × String) :=
  reviews.foldl trackStep []

/-- The final loop of `isPRApproved` (`pr_checker.go` lines 430-444):
walk the tracked states, returning false at any CHANGES_REQUESTED and
otherwise whether an APPROVED state was seen. -/
def verdictLoop : List (String × String) → Bool → Bool
  | [], hasApproval => hasApproval
  | (_, state) :: rest, hasApproval =>
    if state = "APPROVED" then verdictLoop rest true
    else if state = "CHANGES_REQUESTED" then false
    else verdictLoop rest hasApproval

/-- `prchecker.isPRApproved` on an already-fetched review list
(`pr_checker.go` lines 394-455); the review fetch itself is handled by
the scan loop, which aborts on a fetch error. -/
def isPRApproved (reviews : List Review) : Bool :=
  verdictLoop (latestReviewByReviewer reviews) false

/-- Spec-side predicate: a review that the verdict computation tracks
(non-empty state, non-empty non-"ghost" reviewer, state APPROVED or
CHANGES_REQUESTED). -/
def tracksState (rv : Review) : Bool :=
  if rv.state = "" ∨ rv.reviewer = "" ∨ rv.reviewer = "ghost" then false
  else if rv.state = "APPROVED" ∨ rv.state = "CHANGES_REQUESTED" then true
  else false

/-- Spec-side definition: the latest APPROVED/CHANGES_REQUESTED state
seen for reviewer `r` in the chronologically ordered review list (later
tracked reviews by the same reviewer overwrite earlier ones). -/
def latestTracked (reviews : List Review) (r : String) : Option String :=
  reviews.foldl
    (fun acc rv => if tracksState rv = true ∧ rv.reviewer = r then some rv.state else acc)
    none

/-- First-match lookup in an association list (proof helper relating the
map model to `latestTracked`). -/
def lookupR (r : String) : List (String × String) → Option String
  | [] => none
  | (k, v) :: rest => if k = r then some v else lookupR r rest

/-- The fields of a fetched pull request that the scan loop reads:
`GetNumber`, `GetTitle`, `GetUser().GetLogin()`, `GetHTMLURL`,
`GetUpdatedAt`, `GetMergedAt` (`none` models the zero merge time of an
unmerged PR). -/
structure PullRequest where
  number : Nat
  title : String
  author : String
  url : String
  updatedAt : Int
  mergedAt : Option Int
deriving DecidableEq

/-- `prchecker.PR`: the record kept for an unapproved pull request. -/
structure PR where
  Number : Nat
  Title : String
  Author : String
  URL : String
deriving DecidableEq

/-- The mutable state of `CheckRepository`'s pagination loop
(`pr_checker.go` lines 256-384), plus two observations of the calls the
code makes: `pagesFetched` counts `GetPullRequests` calls and
`reviewsFetched` lists the PR numbers passed to `isPRApproved` (each of
which issues one `ListPullRequestReviews` call). -/
structure LoopState where
  unapprovedPRs : List PR
  consecutive : Nat
  pageMergedInWindow : Nat
  totalMergedPRsInWindow : Nat
  totalPRs : Nat
  skippedPRs : Nat
  pageSkippedPRs : Nat
  stopFetching : Bool
  pagesFetched : Nat
  reviewsFetched : List Nat
deriving DecidableEq

/-- `outOfWindowThreshold` constant of `CheckRepository` (20). -/
def outOfWindowThreshold : Nat := 20

/-- The per-page PR loop of `CheckRepository` (`pr_checker.go` lines
292-361).  Returns the updated state and, on a review-fetch failure, the
error that aborts the whole repository scan.  A `stopFetching := true`
in the returned state corresponds to the Go `break` out of the page. -/
def processPRs (reviewsOf : Nat → Except String (List Review)) (cutoff : Int) :
    List PullRequest → LoopState → LoopState × Option String
  | [], st => (st, none)
  | pr :: rest, st =>
    let st0 := { st with totalPRs := st.totalPRs + 1 }
    if pr.updatedAt < cutoff then
      ({ st0 with stopFetching := true }, none)
    else
      match pr.mergedAt with
      | none =>
        processPRs reviewsOf cutoff rest
          { st0 with pageSkippedPRs := st0.pageSkippedPRs + 1,
                     skippedPRs := st0.skippedPRs + 1,
                     consecutive := st0.consecutive + 1 }
      | some mergedAt =>
        if mergedAt < cutoff then
          let st1 := { st0 with pageSkippedPRs := st0.pageSkippedPRs + 1,
                                skippedPRs := st0.skippedPRs + 1,
                                consecutive := st0.consecutive + 1 }
          if st1.consecutive ≥ outOfWindowThreshold then
            ({ st1 with stopFetching := true }, none)
          else
            processPRs reviewsOf cutoff rest st1
        else
          let st2 := { st0 with consecutive := 0,
                                pageMergedInWindow := st0.pageMergedInWindow + 1,
                                totalMergedPRsInWindow := st0.totalMergedPRsInWindow + 1,
                                reviewsFetched := st0.reviewsFetched ++ [pr.number] }
          match reviewsOf pr.number with
          | Except.error e => (st2, some ("error checking PR approval: " ++ e))
          | Except.ok reviews =>
            if isPRApproved reviews then
              processPRs reviewsOf cutoff rest st2
            else
              processPRs reviewsOf cutoff rest
                { st2 with unapprovedPRs :=
                    st2.unapprovedPRs ++ [⟨pr.number, pr.title, pr.author, pr.url⟩] }

/-- The pagination loop of `CheckRepository` (`pr_checker.go` lines
269-384).  The server's pages are modelled as the list `pages`, consumed
front to back: fetching with the list empty yields an empty PR page (the
`len(prs) == 0` break), and the server's `resp.NextPage == 0` signal
corresponds to the consumed page being the last list element. -/
def scanPages (reviewsOf : Nat → Except String (List Review)) (cutoff : Int) :
    List (Except String (List PullRequest)) → LoopState → LoopState × Option String
  | [], st =>
    if st.stopFetching then (st, none)
    else ({ st with pagesFetched := st.pagesFetched + 1 }, none)
  | Except.error e :: _, st =>
    if st.stopFetching then (st, none)
    else ({ st with pagesFetched := st.pagesFetched + 1 },
          some ("error getting pull requests: " ++ e))
  | Except.ok prs :: rest, st =>
    if st.stopFetching then (st, none)
    else
      let stF := { st with pagesFetched := st.pagesFetched + 1 }
      if prs = [] then (stF, none)
      else
        match processPRs reviewsOf cutoff prs
            { stF with pageMergedInWindow := 0, pageSkippedPRs := 0 } with
        | (st1, some e) => (st1, some e)
        | (st1, none) =>
          if st1.stopFetching ∨ rest.isEmpty then (st1, none)
          else
            let st3 :=
              if st1.pageMergedInWindow = 0 then
                let c := st1.consecutive + outOfWindowThreshold / 2
                let st2 := { st1 with consecutive := c }
                if c ≥ outOfWindowThreshold then { st2 with stopFetching := true }
                else st2
              else st1
            scanPages reviewsOf cutoff rest st3

/-- `prchecker.Result`. -/
structure Result where
  Repository : List Char
  UnapprovedPRs : List PR
  Error : Option String
deriving DecidableEq

/-- The zero-initialised loop state at the top of `CheckRepository`. -/
def initialScanState : LoopState :=
  { unapprovedPRs := [], consecutive := 0, pageMergedInWindow := 0,
    totalMergedPRsInWindow := 0, totalPRs := 0, skippedPRs := 0,
    pageSkippedPRs := 0, stopFetching := false, pagesFetched := 0,
    reviewsFetched := [] }

/-- `Service.CheckRepository` (`pr_checker.go` lines 221-391): parse the
repository reference, compute `cutoffTime = now - timeWindow`, run the
pagination loop, and attach the accumulated unapproved-PR list to the
result only on fully successful completion. -/
def checkRepository (repository : List Char) (now timeWindow : Int)
    (pages : List (Except String (List PullRequest)))
    (reviewsOf : Nat → Except String (List Review)) : Result :=
  match Common.ParseRepository repository with
  | (_, _, false) =>
    { Repository := repository, UnapprovedPRs := [],
      Error := some "invalid repository format, expected owner/repo" }
  | (_, _, true) =>
    let cutoffTime := now - timeWindow
    match scanPages reviewsOf cutoffTime pages initialScanState with
    | (_, some e) =>
      { Repository := repository, UnapprovedPRs := [], Error := some e }
    | (st, none) =>
      { Repository := repository, UnapprovedPRs := st.unapprovedPRs, Error := none }

/-- The repository-set resolution of `prchecker.MonitorWithService`
(`pr_checker.go` lines 59-151).  `orgRepos` / `userRepos` are the full
"owner/name" lists the client's repository-listing calls would return
(the one actually consulted depends on whether `organization` is empty),
and `check` stands for `service.CheckRepository` applied to the run's
token and window. -/
def MonitorWithService (enabled : Bool) (repoVisibility : String)
    (specificRepositories : List (List Char)) (organization : List Char)
    (excludedRepositories : List (List Char))
    (orgRepos userRepos : Except String (List (List Char)))
    (check : List Char → Result) : List Result :=
  if enabled = false then []
  else if repoVisibility = "specific" then
    specificRepositories.map check
  else if repoVisibility = "all" ∨ repoVisibility = "public-only" ∨
      repoVisibility = "private-only" then
    match (if organization ≠ [] then orgRepos else userRepos) with
    | Except.error e =>
      [{ Repository := if organization ≠ [] then "org:".toList ++ organization
                       else "user-repositories".toList,
         UnapprovedPRs := [],
         Error := some ("failed to fetch repositories: " ++ e) }]
    | Except.ok repos =>
      (repos.filter (fun r => !(excludedRepositories.contains r))).map check
  else
    [{ Repository := "all-repositories".toList, UnapprovedPRs := [],
       Error := some ("invalid repository visibility setting: " ++ repoVisibility) }]

end PRChecker

namespace RepoVisibility

/-- The fields `CheckOrganization` reads from a listed repository:
`GetName` and `CreatedAt` (`none` models a nil `CreatedAt`, treated by
the source as recently created). -/
structure Repo where
  name : List Char
  createdAt : Option Int
deriving DecidableEq

/-- A repository event: `GetType` and `CreatedAt` (`none` models a nil
`CreatedAt`, treated by the source as inside the window). -/
structure Event where
  type : String
  createdAt : Option Int
deriving DecidableEq

/-- The `isInWindow` computation of `wasRecentlyMadePublic`
(`repovisibility`, part_003 lines 93-97): an event is in the window
unless its creation time is strictly before the cutoff. -/
def eventInWindow (cutoff : Int) (ev : Event) : Bool :=
  match ev.createdAt with
  | none => true
  | some t => decide (¬ t < cutoff)

/-- `Checker.wasRecentlyMadePublic` on an already-fetched event list
(part_003 lines 82-111): scan newest-first events, returning false at
the first event older than the cutoff, and true at a "PublicEvent"
before that point. -/
def wasRecentlyMadePublic (cutoff : Int) : List Event → Bool
  | [] => false
  | ev :: rest =>
    if eventInWindow cutoff ev = false then false
    else if ev.type = "PublicEvent" then true
    else wasRecentlyMadePublic cutoff rest

/-- The `isRecent` computation of `CheckOrganization` (part_003 lines
55-59): a repository counts as recently created unless its creation time
is strictly before the cutoff. -/
def repoIsRecent (cutoff : Int) (repo : Repo) : Bool :=
  match repo.createdAt with
  | none => true
  | some t => decide (¬ t < cutoff)

/-- The per-repository classification loop of `CheckOrganization`
(part_003 lines 54-76).  Returns the findings ("org/name" strings) and,
as an observation, the names of the repositories whose event history was
fetched (`ListRepositoryEvents` calls); an event-fetch error is logged
and the repository skipped. -/
def classifyRepos (orgName : List Char) (cutoff : Int)
    (eventsOf : List Char → Except String (List Event)) :
    List Repo → List (List Char) × List (List Char)
  | [] => ([], [])
  | repo :: rest =>
    if repoIsRecent cutoff repo then
      let res := classifyRepos orgName cutoff eventsOf rest
      ((orgName ++ '/' :: repo.name) :: res.1, res.2)
    else
      match eventsOf repo.name with
      | Except.error _ =>
        let res := classifyRepos orgName cutoff eventsOf rest
        (res.1, repo.name :: res.2)
      | Except.ok evs =>
        let res := classifyRepos orgName cutoff eventsOf rest
        if wasRecentlyMadePublic cutoff evs then
          ((orgName ++ '/' :: repo.name) :: res.1, repo.name :: res.2)
        else (res.1, repo.name :: res.2)

/-- `Checker.CheckOrganization` (part_003 lines 41-79): list the
organization's public repositories (`reposResult` is that call's reply)
and classify each; a listing failure aborts the organization's scan. -/
def CheckOrganization (orgName : List Char) (cutoff : Int)
    (reposResult : Except String (List Repo))
    (eventsOf : List Char → Except String (List Event)) :
    Except String (List (List Char) × List (List Char)) :=
  match reposResult with
  | Except.error e => Except.error ("failed to list organization repositories: " ++ e)
  | Except.ok repos => Except.ok (classifyRepos orgName cutoff eventsOf repos)

end RepoVisibility

namespace ConfigPkg

/-- `config.GitHubConfig`. -/
structure GitHubConfig where
  Token : String
deriving DecidableEq

/-- `config.PRCheckerConfig`. -/
structure PRCheckerConfig where
  Enabled : Bool
  RepoVisibility : String
  Organization : String
  SpecificRepositories : List String
  ExcludedRepositories : List String
  TimeWindow : Int
  DebugLogging : Bool
deriving DecidableEq

/-- `config.RepoVisibilityConfig`. -/
structure RepoVisibilityConfig where
  Enabled : Bool
  RepoVisibility : String
  Organizations : List String
  CheckWindow : Int
deriving DecidableEq

/-- `config.MonitorsConfig`. -/
structure MonitorsConfig where
  PRChecker : PRCheckerConfig
  RepoVisibility : RepoVisibilityConfig
deriving DecidableEq

/-- `config.Config` (the `RepoFilters` field is unused by the monitors
and omitted). -/
structure Config where
  GitHub : GitHubConfig
  Monitors : MonitorsConfig
deriving DecidableEq

/-- The `validVisibilities` membership test of `Config.Validate`. -/
def validVisibility (v : String) : Bool :=
  decide (v = "all" ∨ v = "public-only" ∨ v = "private-only" ∨ v = "specific")

/-- `config.Config.Validate` (`pkg/config/config.go` lines 98-163) as a
pure function returning the first error, `none` on success.  It performs
no API calls; the Go version's only other effect is a log warning that
does not alter the result. -/
def Validate (c : Config) : Option String :=
  if c.GitHub.Token = "" then
    some "GitHub token is required"
  else if c.Monitors.PRChecker.Enabled = true ∧
      validVisibility c.Monitors.PRChecker.RepoVisibility = false then
    some "invalid repository visibility"
  else if c.Monitors.PRChecker.Enabled = true ∧
      c.Monitors.PRChecker.RepoVisibility = "specific" ∧
      c.Monitors.PRChecker.SpecificRepositories = [] then
    some "at least one repository must be specified for PR checker"
  else if c.Monitors.PRChecker.TimeWindow ≤ 0 then
    some "time window must be greater than 0"
  else if c.Monitors.RepoVisibility.Enabled = true then
    if validVisibility c.Monitors.RepoVisibility.RepoVisibility = false then
      some "invalid repository visibility for repo visibility monitor"
    else if c.Monitors.RepoVisibility.RepoVisibility = "specific" ∧
        c.Monitors.RepoVisibility.Organizations = [] then
      some "at least one organization must be specified when visibility is specific"
    else if c.Monitors.RepoVisibility.Organizations = [] then
      some "at least one organization must be specified for repo visibility monitor"
    else if c.Monitors.RepoVisibility.CheckWindow ≤ 0 then
      some "check window for repo visibility must be greater than 0"
    else none
  else none

end ConfigPkg

end GitMonitor

namespace GitMonitor

namespace Common

theorem splitGo_ne_nil (sep : Char) (s : List Char) : splitGo sep s ≠ [] := by
  cases s with
  | nil => simp [splitGo]
  | cons c rest =>
    simp only [splitGo]
    cases h : splitGo sep rest with
    | nil => simp
    | cons seg segs =>
      by_cases hc : c = sep <;> simp [hc]

theorem splitGo_length (sep : Char) (s : List Char) :
    (splitGo sep s).length = s.count sep + 1 := by
  induction s with
  | nil => simp [splitGo]
  | cons c rest ih =>
    simp only [splitGo]
    cases h : splitGo sep rest with
    | nil => exact absurd h (splitGo_ne_nil sep rest)
    | cons seg segs =>
      rw [h] at ih
      by_cases hc : c = sep
      · subst hc
        simp_all [List.count_cons]
      · simp_all [List.count_cons, Ne.symm hc]

theorem joinSep_splitGo (sep : Char) (s : List Char) :
    joinSep sep (splitGo sep s) = s := by
  induction s with
  | nil => simp [splitGo, joinSep]
  | cons c rest ih =>
    simp only [splitGo]
    cases h : splitGo sep rest with
    | nil => exact absurd h (splitGo_ne_nil sep rest)
    | cons seg segs =>
      rw [h] at ih
      by_cases hc : c = sep
      · subst hc
        cases segs <;> simp_all [joinSep]
      · cases segs <;> simp_all [joinSep]

theorem splitGo_not_mem (sep : Char) (s : List Char) :
    ∀ seg ∈ splitGo sep s, sep ∉ seg := by
  induction s with
  | nil => simp [splitGo]
  | cons c rest ih =>
    simp only [splitGo]
    cases h : splitGo sep rest with
    | nil => exact absurd h (splitGo_ne_nil sep rest)
    | cons seg segs =>
      have ihseg : sep ∉ seg := ih seg (by rw [h]; simp)
      have ihsegs : ∀ x ∈ segs, sep ∉ x := fun x hx => ih x (by rw [h]; simp [hx])
      dsimp only
      by_cases hc : c = sep
      · subst hc
        rw [if_pos rfl]
        intro x hx
        rw [List.mem_cons] at hx
        rcases hx with rfl | hx
        · simp
        · rw [List.mem_cons] at hx
          rcases hx with rfl | hx
          · exact ihseg
          · exact ihsegs x hx
      · simp only [if_neg hc]
        intro x hx
        rw [List.mem_cons] at hx
        rcases hx with rfl | hx
        · intro hmem
          rw [List.mem_cons] at hmem
          rcases hmem with h1 | h1
          · exact hc h1.symm
          · exact ihseg h1
        · exact ihsegs x hx

end Common

namespace PRChecker

theorem lookupR_eq_none_of_not_any (r : String) (m : List (String × String))
    (h : m.any (fun p => p.1 = r) = false) : lookupR r m = none := by
  induction m with
  | nil => rfl
  | cons p rest ih =>
    simp only [List.any_cons, Bool.or_eq_false_iff, decide_eq_false_iff_not] at h
    obtain ⟨h1, h2⟩ := h
    obtain ⟨k, v⟩ := p
    simp only [lookupR, if_neg h1]
    exact ih h2

theorem lookupR_append (r : String) (m l : List (String × String)) :
    lookupR r (m ++ l) =
      match lookupR r m with
      | some v => some v
      | none => lookupR r l := by
  induction m with
  | nil => rfl
  | cons p rest ih =>
    obtain ⟨k, v⟩ := p
    by_cases hk : k = r
    · simp [lookupR, hk]
    · simp only [List.cons_append, lookupR, if_neg hk]
      exact ih

theorem lookupR_some_mem_keys (r v : String) (m : List (String × String))
    (h : lookupR r m = some v) : r ∈ m.map Prod.fst := by
  induction m with
  | nil => simp [lookupR] at h
  | cons p rest ih =>
    obtain ⟨k, w⟩ := p
    by_cases hk : k = r
    · simp [hk]
    · simp only [lookupR, if_neg hk] at h
      simp [ih h]

theorem lookupR_map_replace_ne (r reviewer state : String) (m : List (String × String))
    (hr : reviewer ≠ r) :
    lookupR r (m.map fun p => if p.1 = reviewer then (reviewer, state) else p) =
      lookupR r m := by
  induction m with
  | nil => rfl
  | cons p rest ih =>
    obtain ⟨k, w⟩ := p
    simp only [List.map_cons]
    dsimp only
    by_cases hk : k = reviewer
    · subst hk
      have hkr : k ≠ r := hr
      rw [if_pos rfl]
      simp only [lookupR]
      rw [if_neg hkr, if_neg hkr]
      exact ih
    · rw [if_neg hk]
      by_cases hkr : k = r
      · simp only [lookupR]
        rw [if_pos hkr, if_pos hkr]
      · simp only [lookupR]
        rw [if_neg hkr, if_neg hkr]
        exact ih

theorem lookupR_map_replace_self (reviewer state : String) (m : List (String × String))
    (hany : m.any (fun p => p.1 = reviewer) = true) :
    lookupR reviewer (m.map fun p => if p.1 = reviewer then (reviewer, state) else p) =
      some state := by
  induction m with
  | nil => simp at hany
  | cons p rest ih =>
    obtain ⟨k, w⟩ := p
    simp only [List.map_cons]
    dsimp only
    by_cases hk : k = reviewer
    · subst hk
      rw [if_pos rfl]
      simp [lookupR]
    · have hany2 : rest.any (fun p => p.1 = reviewer) = true := by
        simp only [List.any_cons, Bool.or_eq_true_iff, decide_eq_true_eq] at hany
        rcases hany with h | h
        · exact absurd h hk
        · exact h
      rw [if_neg hk]
      simp only [lookupR]
      rw [if_neg hk]
      exact ih hany2

theorem lookupR_updateReview (r reviewer state : String) (m : List (String × String)) :
    lookupR r (updateReview m reviewer state) =
      if reviewer = r then some state else lookupR r m := by
  unfold updateReview
  by_cases hany : m.any (fun p => p.1 = reviewer) = true
  · rw [if_pos hany]
    by_cases hr : reviewer = r
    · subst hr
      rw [if_pos rfl]
      exact lookupR_map_replace_self reviewer state m hany
    · rw [if_neg hr]
      exact lookupR_map_replace_ne r reviewer state m hr
  · rw [if_neg hany]
    rw [lookupR_append]
    have hfalse : m.any (fun p => p.1 = reviewer) = false := by
      have h2 := hany
      simp only [Bool.not_eq_true] at h2
      exact h2
    have hnone : lookupR reviewer m = none :=
      lookupR_eq_none_of_not_any reviewer m hfalse
    by_cases hr : reviewer = r
    · subst hr
      rw [hnone]
      simp [lookupR]
    · cases hm : lookupR r m with
      | some v => simp [hm, hr]
      | none => simp [hm, lookupR, hr]

theorem lookupR_trackStep (r : String) (m : List (String × String)) (rv : Review) :
    lookupR r (trackStep m rv) =
      if tracksState rv = true ∧ rv.reviewer = r then some rv.state else lookupR r m := by
  unfold trackStep tracksState
  by_cases h1 : rv.state = "" ∨ rv.reviewer = "" ∨ rv.reviewer = "ghost"
  · simp [h1]
  · by_cases h2 : rv.state = "APPROVED" ∨ rv.state = "CHANGES_REQUESTED"
    · simp only [if_neg h1, if_pos h2, lookupR_updateReview]
      by_cases hr : rv.reviewer = r
      · simp [hr]
      · simp [hr]
    · simp [h1, h2]

theorem lookupR_foldl_trackStep (r : String) (reviews : List Review) :
    ∀ m : List (String × String),
      lookupR r (reviews.foldl trackStep m) =
        reviews.foldl
          (fun acc rv =>
            if tracksState rv = true ∧ rv.reviewer = r then some rv.state else acc)
          (lookupR r m) := by
  induction reviews with
  | nil => intro m; rfl
  | cons rv rest ih =>
    intro m
    simp only [List.foldl_cons]
    rw [ih (trackStep m rv), lookupR_trackStep]

theorem latestTracked_eq (reviews : List Review) (r : String) :
    latestTracked reviews r = lookupR r (latestReviewByReviewer reviews) := by
  rw [latestReviewByReviewer, lookupR_foldl_trackStep]
  rfl

theorem nodupKeys_updateReview (reviewer state : String) (m : List (String × String))
    (h : (m.map Prod.fst).Nodup) :
    ((updateReview m reviewer state).map Prod.fst).Nodup := by
  unfold updateReview
  by_cases hany : m.any (fun p => p.1 = reviewer) = true
  · rw [if_pos hany]
    have : ((m.map fun p => if p.1 = reviewer then (reviewer, state) else p).map Prod.fst) =
        m.map Prod.fst := by
      rw [List.map_map]
      apply List.map_congr_left
      intro p _
      by_cases hp : p.1 = reviewer
      · simp [hp]
      · simp [hp]
    rw [this]
    exact h
  · rw [if_neg hany]
    rw [List.map_append]
    simp only [List.map_cons, List.map_nil]
    rw [List.nodup_append]
    refine ⟨h, List.nodup_singleton reviewer, ?_⟩
    intro a ha hb
    simp only [List.mem_singleton] at hb
    subst hb
    obtain ⟨p, hp, hpk⟩ := List.mem_map.mp ha
    apply hany
    simp only [List.any_eq_true, decide_eq_true_eq]
    exact ⟨p, hp, hpk⟩

theorem nodupKeys_trackStep (m : List (String × String)) (rv : Review)
    (h : (m.map Prod.fst).Nodup) : ((trackStep m rv).map Prod.fst).Nodup := by
  unfold trackStep
  by_cases h1 : rv.state = "" ∨ rv.reviewer = "" ∨ rv.reviewer = "ghost"
  · simpa [h1] using h
  · by_cases h2 : rv.state = "APPROVED" ∨ rv.state = "CHANGES_REQUESTED"
    · simp only [if_neg h1, if_pos h2]
      exact nodupKeys_updateReview rv.reviewer rv.state m h
    · simpa [h1, h2] using h

theorem nodupKeys_foldl_trackStep (reviews : List Review) :
    ∀ m : List (String × String), (m.map Prod.fst).Nodup →
      ((reviews.foldl trackStep m).map Prod.fst).Nodup := by
  induction reviews with
  | nil => intro m h; exact h
  | cons rv rest ih =>
    intro m h
    simp only [List.foldl_cons]
    exact ih (trackStep m rv) (nodupKeys_trackStep m rv h)

theorem nodupKeys_latestReviewByReviewer (reviews : List Review) :
    ((latestReviewByReviewer reviews).map Prod.fst).Nodup :=
  nodupKeys_foldl_trackStep reviews [] (by simp)

theorem any_value_iff_lookupR (v : String) (m : List (String × String))
    (h : (m.map Prod.fst).Nodup) :
    m.any (fun p => p.2 = v) = true ↔ ∃ r, lookupR r m = some v := by
  constructor
  · intro hany
    induction m with
    | nil => simp at hany
    | cons p rest ih =>
      obtain ⟨k, w⟩ := p
      simp only [List.map_cons, List.nodup_cons] at h
      obtain ⟨hk, hrest⟩ := h
      simp only [List.any_cons, Bool.or_eq_true_iff, decide_eq_true_eq] at hany
      rcases hany with hw | hany
      · exact ⟨k, by simp [lookupR, hw]⟩
      · obtain ⟨r, hr⟩ := ih hrest hany
        have hkr : k ≠ r := by
          intro hkr
          exact hk (hkr ▸ lookupR_some_mem_keys r v rest hr)
        exact ⟨r, by simp [lookupR, hkr, hr]⟩
  · rintro ⟨r, hr⟩
    induction m with
    | nil => simp [lookupR] at hr
    | cons p rest ih =>
      obtain ⟨k, w⟩ := p
      by_cases hk : k = r
      · simp only [lookupR, if_pos hk] at hr
        simp only [Option.some.injEq] at hr
        simp [List.any_cons, hr]
      · simp only [lookupR, if_neg hk] at hr
        have := ih (by
          simp only [List.map_cons, List.nodup_cons] at h
          exact h.2) hr
        simp [List.any_cons, this]

theorem verdictLoop_eq (m : List (String × String)) (b : Bool) :
    verdictLoop m b =
      if m.any (fun p => p.2 = "CHANGES_REQUESTED") then false
      else b || m.any (fun p => p.2 = "APPROVED") := by
  induction m generalizing b with
  | nil => simp [verdictLoop]
  | cons p rest ih =>
    obtain ⟨k, w⟩ := p
    by_cases hA : w = "APPROVED"
    · subst hA
      simp only [verdictLoop, if_pos rfl, ih true, List.any_cons]
      have : (("APPROVED" : String) = "CHANGES_REQUESTED") = False := by simp
      simp [this]
    · by_cases hC : w = "CHANGES_REQUESTED"
      · subst hC
        simp [verdictLoop, hA, List.any_cons]
      · simp only [verdictLoop, if_neg hA, if_neg hC, ih b, List.any_cons]
        simp [hA, hC]

theorem processPRs_pagesFetched (reviewsOf : Nat → Except String (List Review))
    (cutoff : Int) (l : List PullRequest) :
    ∀ st : LoopState,
      (processPRs reviewsOf cutoff l st).1.pagesFetched = st.pagesFetched := by
  induction l with
  | nil => intro st; rfl
  | cons pr rest ih =>
    intro st
    rw [processPRs]
    dsimp only
    split
    · rfl
    · split
      · exact ih _
      · split
        · split
          · rfl
          · exact ih _
        · split
          · rfl
          · split
            · exact ih _
            · exact ih _

theorem processPRs_stale_stops (reviewsOf : Nat → Except String (List Review))
    (cutoff : Int) (l : List PullRequest) :
    ∀ st : LoopState, (∃ pr ∈ l, pr.updatedAt < cutoff) →
      (processPRs reviewsOf cutoff l st).2 ≠ none ∨
      (processPRs reviewsOf cutoff l st).1.stopFetching = true := by
  induction l with
  | nil =>
    intro st h
    obtain ⟨pr, hmem, -⟩ := h
    simp at hmem
  | cons pr0 rest ih =>
    intro st h
    rw [processPRs]
    dsimp only
    by_cases h1 : pr0.updatedAt < cutoff
    · rw [if_pos h1]
      right
      rfl
    · obtain ⟨pr, hmem, hst⟩ := h
      have hmem2 : pr ∈ rest := by
        rcases List.mem_cons.mp hmem with rfl | hm
        · exact absurd hst h1
        · exact hm
      have hrest : ∃ q ∈ rest, q.updatedAt < cutoff := ⟨pr, hmem2, hst⟩
      rw [if_neg h1]
      split
      · exact ih _ hrest
      · split
        · split
          · right
            rfl
          · exact ih _ hrest
        · split
          · left
            simp
          · split
            · exact ih _ hrest
            · exact ih _ hrest

theorem scanPages_stopped (reviewsOf : Nat → Except String (List Review))
    (cutoff : Int) (pages : List (Except String (List PullRequest)))
    (st : LoopState) (h : st.stopFetching = true) :
    scanPages reviewsOf cutoff pages st = (st, none) := by
  cases pages with
  | nil => rw [scanPages, if_pos h]
  | cons p rest =>
    cases p with
    | error e => rw [scanPages, if_pos h]
    | ok prs => rw [scanPages, if_pos h]

theorem scanPages_fetch_bound (reviewsOf : Nat → Except String (List Review))
    (cutoff : Int) (pages : List (Except String (List PullRequest))) :
    ∀ (st : LoopState) (i : Nat) (prs : List PullRequest) (pr : PullRequest),
      pages.get? i = some (Except.ok prs) → pr ∈ prs → pr.updatedAt < cutoff →
      (scanPages reviewsOf cutoff pages st).1.pagesFetched ≤
        st.pagesFetched + i + 1 := by
  induction pages with
  | nil =>
    intro st i prs pr hget
    simp [List.get?] at hget
  | cons p rest ih =>
    intro st i prs pr hget hmem hstale
    by_cases hstop : st.stopFetching = true
    · rw [scanPages_stopped reviewsOf cutoff _ st hstop]
      dsimp only
      omega
    · cases i with
      | zero =>
        simp only [List.get?] at hget
        injection hget with hp
        subst hp
        rw [scanPages]
        rw [if_neg hstop]
        dsimp only
        have hne : ¬ prs = [] := by
          rintro rfl
          simp at hmem
        rw [if_neg hne]
        rcases hres : processPRs reviewsOf cutoff prs
            { st with pagesFetched := st.pagesFetched + 1,
                      pageMergedInWindow := 0, pageSkippedPRs := 0 } with ⟨st1, err⟩
        have hpf : st1.pagesFetched = st.pagesFetched + 1 := by
          have hq := processPRs_pagesFetched reviewsOf cutoff prs
            { st with pagesFetched := st.pagesFetched + 1,
                      pageMergedInWindow := 0, pageSkippedPRs := 0 }
          rw [hres] at hq
          exact hq
        cases err with
        | some e =>
          dsimp only
          omega
        | none =>
          have hstop1 : st1.stopFetching = true := by
            rcases processPRs_stale_stops reviewsOf cutoff prs
                { st with pagesFetched := st.pagesFetched + 1,
                          pageMergedInWindow := 0, pageSkippedPRs := 0 }
                ⟨pr, hmem, hstale⟩ with hcase | hcase
            · rw [hres] at hcase
              simp at hcase
            · rw [hres] at hcase
              exact hcase
          dsimp only
          rw [if_pos (Or.inl hstop1)]
          dsimp only
          omega
      | succ i =>
        cases p with
        | error e =>
          rw [scanPages]
          rw [if_neg hstop]
          dsimp only
          omega
        | ok prs0 =>
          simp only [List.get?] at hget
          rw [scanPages]
          rw [if_neg hstop]
          dsimp only
          by_cases hne : prs0 = []
          · rw [if_pos hne]
            dsimp only
            omega
          · rw [if_neg hne]
            rcases hres : processPRs reviewsOf cutoff prs0
                { st with pagesFetched := st.pagesFetched + 1,
                          pageMergedInWindow := 0, pageSkippedPRs := 0 } with ⟨st1, err⟩
            have hpf : st1.pagesFetched = st.pagesFetched + 1 := by
              have hq := processPRs_pagesFetched reviewsOf cutoff prs0
                { st with pagesFetched := st.pagesFetched + 1,
                          pageMergedInWindow := 0, pageSkippedPRs := 0 }
              rw [hres] at hq
              exact hq
            cases err with
            | some e =>
              dsimp only
              omega
            | none =>
              dsimp only
              by_cases hc : st1.stopFetching = true ∨ rest.isEmpty = true
              · rw [if_pos hc]
                dsimp only
                omega
              · rw [if_neg hc]
                by_cases hpm : st1.pageMergedInWindow = 0
                · rw [if_pos hpm]
                  by_cases hth : st1.consecutive + outOfWindowThreshold / 2 ≥
                      outOfWindowThreshold
                  · rw [if_pos hth]
                    have h2 := ih { st1 with
                        consecutive := st1.consecutive + outOfWindowThreshold / 2,
                        stopFetching := true } i prs pr hget hmem hstale
                    have h3 : ({ st1 with
                        consecutive := st1.consecutive + outOfWindowThreshold / 2,
                        stopFetching := true } : LoopState).pagesFetched =
                        st1.pagesFetched := rfl
                    omega
                  · rw [if_neg hth]
                    have h2 := ih { st1 with
                        consecutive := st1.consecutive + outOfWindowThreshold / 2 }
                      i prs pr hget hmem hstale
                    have h3 : ({ st1 with
                        consecutive := st1.consecutive + outOfWindowThreshold / 2 } :
                        LoopState).pagesFetched = st1.pagesFetched := rfl
                    omega
                · rw [if_neg hpm]
                  have h2 := ih st1 i prs pr hget hmem hstale
                  omega

end PRChecker

namespace RepoVisibility

theorem wasRecentlyMadePublic_stops (cutoff : Int) (pre : List Event) :
    ∀ (old : Event) (post : List Event) (t : Int),
      (∀ ev ∈ pre, eventInWindow cutoff ev = true) →
      old.createdAt = some t → t < cutoff →
      wasRecentlyMadePublic cutoff (pre ++ old :: post) =
        pre.any (fun ev => decide (ev.type = "PublicEvent")) := by
  induction pre with
  | nil =>
    intro old post t hpre hold hlt
    rw [List.nil_append]
    rw [wasRecentlyMadePublic]
    have hw : eventInWindow cutoff old = false := by
      unfold eventInWindow
      rw [hold]
      simp [hlt]
    rw [hw]
    simp
  | cons ev pre ih =>
    intro old post t hpre hold hlt
    have hev : eventInWindow cutoff ev = true := hpre ev (by simp)
    have hpre2 : ∀ x ∈ pre, eventInWindow cutoff x = true :=
      fun x hx => hpre x (by simp [hx])
    rw [List.cons_append]
    rw [wasRecentlyMadePublic]
    rw [hev]
    rw [if_neg (by simp : ¬ (true = false))]
    by_cases ht : ev.type = "PublicEvent"
    · rw [if_pos ht]
      simp [List.any_cons, ht]
    · rw [if_neg ht]
      rw [ih old post t hpre2 hold hlt]
      simp [List.any_cons, ht]

end RepoVisibility

end GitMonitor

namespace GitMonitorClaims

open GitMonitor

/-- C2: `ParseRepository s` returns ok = true exactly when `s` contains
exactly one "/" (equivalently the split has exactly two segments), and in
that case the returned owner and name are exactly the two split segments:
`s` decomposes as owner ++ "/" ++ name with no "/" inside either segment
(so the decomposition is the split, even for empty or whitespace-bearing
segments); zero or two-or-more separators give ok = false. -/
theorem parseRepository_ok_iff_one_separator (s : List Char) :
    ((Common.ParseRepository s).2.2 = true ↔ s.count '/' = 1) ∧
    (∀ a b : List Char, Common.ParseRepository s = (a, b, true) →
      s = a ++ '/' :: b ∧ '/' ∉ a ∧ '/' ∉ b) := by
  constructor
  · unfold Common.ParseRepository
    have hlen := Common.splitGo_length '/' s
    cases h : Common.splitGo '/' s with
    | nil => exact absurd h (Common.splitGo_ne_nil '/' s)
    | cons seg segs =>
      rw [h] at hlen
      cases segs with
      | nil =>
        simp only [List.length_cons, List.length_nil] at hlen
        simp
        omega
      | cons seg2 segs2 =>
        cases segs2 with
        | nil =>
          simp only [List.length_cons, List.length_nil] at hlen
          simp
          omega
        | cons seg3 segs3 =>
          simp only [List.length_cons] at hlen
          simp
          omega
  · intro a b hok
    unfold Common.ParseRepository at hok
    have hjoin := Common.joinSep_splitGo '/' s
    have hmem := Common.splitGo_not_mem '/' s
    cases h : Common.splitGo '/' s with
    | nil => exact absurd h (Common.splitGo_ne_nil '/' s)
    | cons seg segs =>
      cases segs with
      | nil => rw [h] at hok; simp at hok
      | cons seg2 segs2 =>
        cases segs2 with
        | nil =>
          rw [h] at hok
          simp only [Prod.mk.injEq] at hok
          obtain ⟨rfl, rfl, -⟩ := hok
          rw [h] at hjoin
          refine ⟨?_, hmem seg (by rw [h]; simp), hmem seg2 (by rw [h]; simp)⟩
          simpa [Common.joinSep] using hjoin.symm
        | cons seg3 segs3 => rw [h] at hok; simp at hok

/-- C1: for every review list, the verdict of `isPRApproved` follows the
latest-tracked-state rule: with `latestTracked` mapping each reviewer
login to the latest APPROVED/CHANGES_REQUESTED state seen for it (empty
states, empty logins and the "ghost" login being ignored, and COMMENTED
or other states never overwriting a tracked state), the PR is approved
iff no reviewer's latest tracked state is CHANGES_REQUESTED and at least
one reviewer's latest tracked state is APPROVED; in particular a PR with
no reviews is not approved. -/
theorem isPRApproved_latest_review_rule :
    (∀ reviews : List PRChecker.Review,
       PRChecker.isPRApproved reviews = true ↔
         ((∀ r : String, PRChecker.latestTracked reviews r ≠ some "CHANGES_REQUESTED") ∧
          (∃ r : String, PRChecker.latestTracked reviews r = some "APPROVED"))) ∧
    PRChecker.isPRApproved [] = false := by
  constructor
  · intro reviews
    rw [PRChecker.isPRApproved, PRChecker.verdictLoop_eq]
    have hnd := PRChecker.nodupKeys_latestReviewByReviewer reviews
    by_cases hCR :
        (PRChecker.latestReviewByReviewer reviews).any
          (fun p => p.2 = "CHANGES_REQUESTED") = true
    · rw [if_pos hCR]
      constructor
      · intro hfalse
        exact absurd hfalse (by simp)
      · rintro ⟨hall, -⟩
        obtain ⟨r, hr⟩ := (PRChecker.any_value_iff_lookupR _ _ hnd).mp hCR
        exact absurd (by rw [PRChecker.latestTracked_eq]; exact hr) (hall r)
    · rw [if_neg hCR]
      simp only [Bool.false_or]
      constructor
      · intro hA
        refine ⟨?_, ?_⟩
        · intro r hr
          apply hCR
          apply (PRChecker.any_value_iff_lookupR _ _ hnd).mpr
          exact ⟨r, by rw [← PRChecker.latestTracked_eq]; exact hr⟩
        · obtain ⟨r, hr⟩ := (PRChecker.any_value_iff_lookupR _ _ hnd).mp hA
          exact ⟨r, by rw [PRChecker.latestTracked_eq]; exact hr⟩
      · rintro ⟨-, r, hr⟩
        apply (PRChecker.any_value_iff_lookupR _ _ hnd).mpr
        exact ⟨r, by rw [← PRChecker.latestTracked_eq]; exact hr⟩
  · rfl

/-- Witness for the verdict rule: one APPROVED review by "alice" makes
the PR approved, hence some reviewer's latest tracked state is
APPROVED. -/
theorem isPRApproved_latest_review_rule_witness :
    ∃ r : String,
      PRChecker.latestTracked [⟨"alice", "APPROVED", 0⟩] r = some "APPROVED" :=
  ((isPRApproved_latest_review_rule.1 [⟨"alice", "APPROVED", 0⟩]).mp (by rfl)).2

/-- Witness for the parser claim at the concrete input "ab/c". -/
theorem parseRepository_ok_iff_one_separator_witness :
    ['a', 'b', '/', 'c'] = ['a', 'b'] ++ '/' :: ['c'] ∧
      '/' ∉ ['a', 'b'] ∧ '/' ∉ ['c'] :=
  (parseRepository_ok_iff_one_separator ['a', 'b', '/', 'c']).2 ['a', 'b'] ['c']
    (by decide)

/-- C3 counterexample: a PR whose `mergedAt` equals the cutoff exactly
(cutoff -24, PR #42 merged and updated at -24) is NOT skipped: the scan
counts zero skipped PRs, fetches PR #42's reviews, and (having no
reviews) reports it unapproved — contradicting the claim that such a PR
is excluded from the approval check and counted as skipped. -/
theorem merged_at_cutoff_counterexample :
    (PRChecker.scanPages (fun _ => Except.ok []) (-24)
        [Except.ok [⟨42, "t", "a", "u", -24, some (-24)⟩]]
        PRChecker.initialScanState).1.skippedPRs = 0 ∧
    (PRChecker.scanPages (fun _ => Except.ok []) (-24)
        [Except.ok [⟨42, "t", "a", "u", -24, some (-24)⟩]]
        PRChecker.initialScanState).1.reviewsFetched = [42] ∧
    (PRChecker.checkRepository ['o', '/', 'r'] 0 24
        [Except.ok [⟨42, "t", "a", "u", -24, some (-24)⟩]]
        (fun _ => Except.ok [])).UnapprovedPRs = [⟨42, "t", "a", "u"⟩] := by
  refine ⟨?_, ?_, ?_⟩ <;> decide

/-- C3 (amended): in the PR compliance scan a merged PR whose `mergedAt`
equals the cutoff exactly is INCLUDED in the approval check — its
reviews are fetched and it is not counted as skipped — while only a PR
merged strictly before the cutoff is skipped (and not evaluated); the
boundary test in the source is `mergedAt.Before(cutoffTime)`. -/
theorem merged_at_cutoff_included (ro : Nat → Except String (List PRChecker.Review))
    (cutoff : Int) (pr : PRChecker.PullRequest) (st : PRChecker.LoopState)
    (hupd : ¬ pr.updatedAt < cutoff) :
    (pr.mergedAt = some cutoff →
      (PRChecker.processPRs ro cutoff [pr] st).1.reviewsFetched =
        st.reviewsFetched ++ [pr.number] ∧
      (PRChecker.processPRs ro cutoff [pr] st).1.skippedPRs = st.skippedPRs) ∧
    (∀ m : Int, pr.mergedAt = some m → m < cutoff →
      (PRChecker.processPRs ro cutoff [pr] st).1.reviewsFetched =
        st.reviewsFetched ∧
      (PRChecker.processPRs ro cutoff [pr] st).1.skippedPRs =
        st.skippedPRs + 1) := by
  constructor
  · intro hm
    rw [PRChecker.processPRs]
    dsimp only
    rw [if_neg hupd, hm]
    dsimp only
    rw [if_neg (lt_irrefl cutoff)]
    cases hro : ro pr.number with
    | error e => exact ⟨rfl, rfl⟩
    | ok reviews =>
      by_cases happ : PRChecker.isPRApproved reviews = true
      · refine ⟨?_, ?_⟩ <;> simp [happ, PRChecker.processPRs]
      · refine ⟨?_, ?_⟩ <;> simp [happ, PRChecker.processPRs]
  · intro m hm hlt
    rw [PRChecker.processPRs]
    dsimp only
    rw [if_neg hupd, hm]
    dsimp only
    rw [if_pos hlt]
    by_cases hth : st.consecutive + 1 ≥ PRChecker.outOfWindowThreshold
    · rw [if_pos hth]
      exact ⟨rfl, rfl⟩
    · rw [if_neg hth]
      exact ⟨rfl, rfl⟩

/-- Witness for the amended boundary claim: a PR merged exactly at
cutoff 0 has its reviews fetched and is not counted skipped; a PR merged
at -1 (strictly before cutoff 0) is counted skipped. -/
theorem merged_at_cutoff_included_witness :
    ((PRChecker.processPRs (fun _ => Except.ok []) 0
        [⟨7, "t", "a", "u", 0, some 0⟩]
        PRChecker.initialScanState).1.reviewsFetched =
      PRChecker.initialScanState.reviewsFetched ++ [7]) ∧
    ((PRChecker.processPRs (fun _ => Except.ok []) 0
        [⟨8, "t", "a", "u", 0, some (-1)⟩]
        PRChecker.initialScanState).1.skippedPRs =
      PRChecker.initialScanState.skippedPRs + 1) :=
  ⟨((merged_at_cutoff_included (fun _ => Except.ok []) 0
      ⟨7, "t", "a", "u", 0, some 0⟩ PRChecker.initialScanState
      (by decide)).1 rfl).1,
   ((merged_at_cutoff_included (fun _ => Except.ok []) 0
      ⟨8, "t", "a", "u", 0, some (-1)⟩ PRChecker.initialScanState
      (by decide)).2 (-1) rfl (by decide)).2⟩

/-- C4: once a PR with `updatedAt` strictly before the cutoff is
encountered in the descending-by-updated-time stream, the page loop
breaks immediately (no further PRs of the page are processed) and the
scan fetches no page beyond the one containing that PR: if page `i`
contains such a PR, the total number of page fetches is at most
`i + 1`. -/
theorem stale_pr_stops_pagination :
    (∀ (ro : Nat → Except String (List PRChecker.Review)) (cutoff : Int)
       (pr : PRChecker.PullRequest) (rest : List PRChecker.PullRequest)
       (st : PRChecker.LoopState),
       pr.updatedAt < cutoff →
       PRChecker.processPRs ro cutoff (pr :: rest) st =
         ({ st with totalPRs := st.totalPRs + 1, stopFetching := true }, none)) ∧
    (∀ (ro : Nat → Except String (List PRChecker.Review)) (cutoff : Int)
       (pages : List (Except String (List PRChecker.PullRequest)))
       (st : PRChecker.LoopState) (i : Nat)
       (prs : List PRChecker.PullRequest) (pr : PRChecker.PullRequest),
       pages.get? i = some (Except.ok prs) → pr ∈ prs →
       pr.updatedAt < cutoff →
       (PRChecker.scanPages ro cutoff pages st).1.pagesFetched ≤
         st.pagesFetched + i + 1) := by
  constructor
  · intro ro cutoff pr rest st h
    rw [PRChecker.processPRs]
    dsimp only
    rw [if_pos h]
  · intro ro cutoff pages st i prs pr hget hmem hstale
    exact PRChecker.scanPages_fetch_bound ro cutoff pages st i prs pr hget hmem
      hstale

/-- Witness for the early-exit claim: one page whose single PR was
updated before the cutoff results in at most one page fetch. -/
theorem stale_pr_stops_pagination_witness :
    (PRChecker.scanPages (fun _ => Except.ok []) 0
        [Except.ok [⟨1, "t", "a", "u", -1, none⟩]]
        PRChecker.initialScanState).1.pagesFetched ≤
      PRChecker.initialScanState.pagesFetched + 0 + 1 :=
  stale_pr_stops_pagination.2 (fun _ => Except.ok []) 0
    [Except.ok [⟨1, "t", "a", "u", -1, none⟩]] PRChecker.initialScanState 0
    [⟨1, "t", "a", "u", -1, none⟩] ⟨1, "t", "a", "u", -1, none⟩
    rfl (by simp) (by decide)

/-- C5: the consecutive out-of-window counter is incremented by one for
each unmerged PR and each PR merged before the cutoff; it is reset to
zero exactly when a PR merged within the window is encountered (the page
transition either adds to it or carries it over unchanged, never resets
it); reaching 20 in the merged-before-cutoff branch stops the scan; and
after a full page with zero in-window merged PRs (with further pages
remaining) the counter grows by 10 = 20/2, the scan stopping if the
threshold is thereby reached. -/
theorem consecutive_counter_behavior :
    (∀ (ro : Nat → Except String (List PRChecker.Review)) (cutoff : Int)
       (pr : PRChecker.PullRequest) (rest : List PRChecker.PullRequest)
       (st : PRChecker.LoopState),
       ¬ pr.updatedAt < cutoff → pr.mergedAt = none →
       PRChecker.processPRs ro cutoff (pr :: rest) st =
         PRChecker.processPRs ro cutoff rest
           { st with totalPRs := st.totalPRs + 1,
                     pageSkippedPRs := st.pageSkippedPRs + 1,
                     skippedPRs := st.skippedPRs + 1,
                     consecutive := st.consecutive + 1 }) ∧
    (∀ (ro : Nat → Except String (List PRChecker.Review)) (cutoff : Int)
       (pr : PRChecker.PullRequest) (rest : List PRChecker.PullRequest)
       (st : PRChecker.LoopState) (m : Int),
       ¬ pr.updatedAt < cutoff → pr.mergedAt = some m → m < cutoff →
       st.consecutive + 1 < PRChecker.outOfWindowThreshold →
       PRChecker.processPRs ro cutoff (pr :: rest) st =
         PRChecker.processPRs ro cutoff rest
           { st with totalPRs := st.totalPRs + 1,
                     pageSkippedPRs := st.pageSkippedPRs + 1,
                     skippedPRs := st.skippedPRs + 1,
                     consecutive := st.consecutive + 1 }) ∧
    (∀ (ro : Nat → Except String (List PRChecker.Review)) (cutoff : Int)
       (pr : PRChecker.PullRequest) (rest : List PRChecker.PullRequest)
       (st : PRChecker.LoopState) (m : Int),
       ¬ pr.updatedAt < cutoff → pr.mergedAt = some m → m < cutoff →
       st.consecutive + 1 ≥ PRChecker.outOfWindowThreshold →
       PRChecker.processPRs ro cutoff (pr :: rest) st =
         ({ st with totalPRs := st.totalPRs + 1,
                    pageSkippedPRs := st.pageSkippedPRs + 1,
                    skippedPRs := st.skippedPRs + 1,
                    consecutive := st.consecutive + 1,
                    stopFetching := true }, none)) ∧
    (∀ (ro : Nat → Except String (List PRChecker.Review)) (cutoff : Int)
       (pr : PRChecker.PullRequest) (rest : List PRChecker.PullRequest)
       (st : PRChecker.LoopState) (m : Int)
       (reviews : List PRChecker.Review),
       ¬ pr.updatedAt < cutoff → pr.mergedAt = some m → ¬ m < cutoff →
       ro pr.number = Except.ok reviews →
       PRChecker.processPRs ro cutoff (pr :: rest) st =
         PRChecker.processPRs ro cutoff rest
           (let stw : PRChecker.LoopState :=
              { st with totalPRs := st.totalPRs + 1, consecutive := 0,
                        pageMergedInWindow := st.pageMergedInWindow + 1,
                        totalMergedPRsInWindow := st.totalMergedPRsInWindow + 1,
                        reviewsFetched := st.reviewsFetched ++ [pr.number] }
            if PRChecker.isPRApproved reviews then stw
            else { stw with unapprovedPRs := stw.unapprovedPRs ++
                     [⟨pr.number, pr.title, pr.author, pr.url⟩] })) ∧
    (∀ (ro : Nat → Except String (List PRChecker.Review)) (cutoff : Int)
       (prs : List PRChecker.PullRequest)
       (rest : List (Except String (List PRChecker.PullRequest)))
       (st st1 : PRChecker.LoopState),
       st.stopFetching = false → prs ≠ [] → rest.isEmpty = false →
       PRChecker.processPRs ro cutoff prs
           { st with pagesFetched := st.pagesFetched + 1,
                     pageMergedInWindow := 0, pageSkippedPRs := 0 } =
         (st1, none) →
       st1.stopFetching = false → st1.pageMergedInWindow = 0 →
       PRChecker.scanPages ro cutoff (Except.ok prs :: rest) st =
         PRChecker.scanPages ro cutoff rest
           { st1 with
              consecutive :=
                st1.consecutive + PRChecker.outOfWindowThreshold / 2,
              stopFetching :=
                decide (st1.consecutive + PRChecker.outOfWindowThreshold / 2 ≥
                  PRChecker.outOfWindowThreshold) }) ∧
    (∀ (ro : Nat → Except String (List PRChecker.Review)) (cutoff : Int)
       (prs : List PRChecker.PullRequest)
       (rest : List (Except String (List PRChecker.PullRequest)))
       (st st1 : PRChecker.LoopState),
       st.stopFetching = false → prs ≠ [] → rest.isEmpty = false →
       PRChecker.processPRs ro cutoff prs
           { st with pagesFetched := st.pagesFetched + 1,
                     pageMergedInWindow := 0, pageSkippedPRs := 0 } =
         (st1, none) →
       st1.stopFetching = false → st1.pageMergedInWindow ≠ 0 →
       PRChecker.scanPages ro cutoff (Except.ok prs :: rest) st =
         PRChecker.scanPages ro cutoff rest st1) := by
  refine ⟨?_, ?_, ?_, ?_, ?_, ?_⟩
  · intro ro cutoff pr rest st h1 hm
    rw [PRChecker.processPRs]
    dsimp only
    rw [if_neg h1, hm]
  · intro ro cutoff pr rest st m h1 hm hlt hth
    rw [PRChecker.processPRs]
    dsimp only
    rw [if_neg h1, hm]
    dsimp only
    rw [if_pos hlt]
    rw [if_neg (show ¬ st.consecutive + 1 ≥ PRChecker.outOfWindowThreshold by
      omega)]
  · intro ro cutoff pr rest st m h1 hm hlt hth
    rw [PRChecker.processPRs]
    dsimp only
    rw [if_neg h1, hm]
    dsimp only
    rw [if_pos hlt]
    rw [if_pos (show st.consecutive + 1 ≥ PRChecker.outOfWindowThreshold from
      hth)]
  · intro ro cutoff pr rest st m reviews h1 hm hmlt hro
    rw [PRChecker.processPRs]
    dsimp only
    rw [if_neg h1, hm]
    dsimp only
    rw [if_neg hmlt, hro]
    dsimp only
    by_cases happ : PRChecker.isPRApproved reviews = true
    · rw [if_pos happ, if_pos happ]
    · rw [if_neg happ, if_neg happ]
  · intro ro cutoff prs rest st st1 hstop hne hrest hres hstop1 hpm
    rw [PRChecker.scanPages]
    rw [if_neg (show ¬ st.stopFetching = true by simp [hstop])]
    dsimp only
    rw [if_neg hne, hres]
    dsimp only
    rw [if_neg (show ¬ (st1.stopFetching = true ∨ rest.isEmpty = true) by
      simp [hstop1, hrest])]
    rw [if_pos hpm]
    by_cases hth : st1.consecutive + PRChecker.outOfWindowThreshold / 2 ≥
        PRChecker.outOfWindowThreshold
    · rw [if_pos hth, decide_eq_true hth]
    · rw [if_neg hth, decide_eq_false hth, ← hstop1]
  · intro ro cutoff prs rest st st1 hstop hne hrest hres hstop1 hpm
    rw [PRChecker.scanPages]
    rw [if_neg (show ¬ st.stopFetching = true by simp [hstop])]
    dsimp only
    rw [if_neg hne, hres]
    dsimp only
    rw [if_neg (show ¬ (st1.stopFetching = true ∨ rest.isEmpty = true) by
      simp [hstop1, hrest])]
    rw [if_neg hpm]

/-- Witness for the counter claim: an unmerged PR increments the counter
from 0 to 1, and a PR merged before the cutoff with the counter at 19
stops the scan. -/
theorem consecutive_counter_behavior_witness :
    (PRChecker.processPRs (fun _ => Except.ok []) 0
        [⟨1, "t", "a", "u", 0, none⟩] PRChecker.initialScanState =
      PRChecker.processPRs (fun _ => Except.ok []) 0 []
        { PRChecker.initialScanState with
            totalPRs := PRChecker.initialScanState.totalPRs + 1,
            pageSkippedPRs := PRChecker.initialScanState.pageSkippedPRs + 1,
            skippedPRs := PRChecker.initialScanState.skippedPRs + 1,
            consecutive := PRChecker.initialScanState.consecutive + 1 }) ∧
    (PRChecker.processPRs (fun _ => Except.ok []) 0
        [⟨2, "t", "a", "u", 0, some (-1)⟩]
        { PRChecker.initialScanState with consecutive := 19 } =
      ({ { PRChecker.initialScanState with consecutive := 19 } with
          totalPRs :=
            ({ PRChecker.initialScanState with consecutive := 19 } :
              PRChecker.LoopState).totalPRs + 1,
          pageSkippedPRs :=
            ({ PRChecker.initialScanState with consecutive := 19 } :
              PRChecker.LoopState).pageSkippedPRs + 1,
          skippedPRs :=
            ({ PRChecker.initialScanState with consecutive := 19 } :
              PRChecker.LoopState).skippedPRs + 1,
          consecutive :=
            ({ PRChecker.initialScanState with consecutive := 19 } :
              PRChecker.LoopState).consecutive + 1,
          stopFetching := true }, none)) :=
  ⟨consecutive_counter_behavior.1 (fun _ => Except.ok []) 0
      ⟨1, "t", "a", "u", 0, none⟩ [] PRChecker.initialScanState
      (by decide) rfl,
   (consecutive_counter_behavior.2.2.1 (fun _ => Except.ok []) 0
      ⟨2, "t", "a", "u", 0, some (-1)⟩ []
      { PRChecker.initialScanState with consecutive := 19 } (-1)
      (by decide) rfl (by decide) (by decide))⟩

/-- C6: `ExecuteWithRateLimit` is transparent: whenever the limiter wait
succeeds it returns exactly the wrapped operation's result (value or
error) and invokes the operation, for every outcome of the best-effort
rate-limit status query (including a failing one); and when the wait
itself fails, the wait error is returned and the operation is never
invoked. -/
theorem executeWithRateLimit_transparent {α : Type} (waitErr : Option String)
    (op : Except String α) (q : Except String (Option Common.RateLimitCore)) :
    (waitErr = none →
       (Common.ExecuteWithRateLimit waitErr op q).result = op ∧
       (Common.ExecuteWithRateLimit waitErr op q).operationInvoked = true) ∧
    (∀ e : String, waitErr = some e →
       (Common.ExecuteWithRateLimit waitErr op q).result = Except.error e ∧
       (Common.ExecuteWithRateLimit waitErr op q).operationInvoked = false) := by
  constructor
  · rintro rfl
    exact ⟨rfl, rfl⟩
  · rintro e rfl
    exact ⟨rfl, rfl⟩

/-- Witness for the rate-limit wrapper claim: with a successful wait, an
operation returning 7 and a failing status query, the result is 7 and
the operation was invoked; with a failed wait, the wait error comes back
and the operation is not invoked. -/
theorem executeWithRateLimit_transparent_witness :
    ((Common.ExecuteWithRateLimit none (Except.ok 7 : Except String Nat)
        (Except.error "boom")).result = Except.ok 7 ∧
     (Common.ExecuteWithRateLimit none (Except.ok 7 : Except String Nat)
        (Except.error "boom")).operationInvoked = true) ∧
    ((Common.ExecuteWithRateLimit (some "cancelled")
        (Except.ok 7 : Except String Nat)
        (Except.error "boom")).result = Except.error "cancelled" ∧
     (Common.ExecuteWithRateLimit (some "cancelled")
        (Except.ok 7 : Except String Nat)
        (Except.error "boom")).operationInvoked = false) :=
  ⟨(executeWithRateLimit_transparent none (Except.ok 7)
      (Except.error "boom")).1 rfl,
   (executeWithRateLimit_transparent (some "cancelled") (Except.ok 7)
      (Except.error "boom")).2 "cancelled" rfl⟩

/-- C9: with the repository-visibility monitor enabled and a valid
visibility mode, `Validate` reports an error whenever the organizations
list is empty (in every visibility mode, not only "specific") and
whenever the check window is not positive; `Validate` is a pure function
of the configuration, so these errors arise before any API call. -/
theorem validate_requires_orgs_and_window (c : ConfigPkg.Config)
    (hen : c.Monitors.RepoVisibility.Enabled = true)
    (hv : ConfigPkg.validVisibility c.Monitors.RepoVisibility.RepoVisibility = true) :
    (c.Monitors.RepoVisibility.Organizations = [] →
      (ConfigPkg.Validate c).isSome = true) ∧
    (c.Monitors.RepoVisibility.CheckWindow ≤ 0 →
      (ConfigPkg.Validate c).isSome = true) := by
  unfold ConfigPkg.Validate
  constructor
  · intro horg
    split_ifs <;> simp_all
  · intro hwin
    split_ifs <;> simp_all

/-- Witness for the validation claim: an enabled monitor with visibility
"all" (not "specific") and an empty organizations list fails
validation. -/
theorem validate_requires_orgs_and_window_witness :
    (ConfigPkg.Validate
      { GitHub := { Token := "t" }
        Monitors :=
          { PRChecker :=
              { Enabled := false, RepoVisibility := "specific",
                Organization := "", SpecificRepositories := [],
                ExcludedRepositories := [], TimeWindow := 24,
                DebugLogging := false }
            RepoVisibility :=
              { Enabled := true, RepoVisibility := "all",
                Organizations := [], CheckWindow := 24 } } }).isSome = true :=
  (validate_requires_orgs_and_window
      { GitHub := { Token := "t" }
        Monitors :=
          { PRChecker :=
              { Enabled := false, RepoVisibility := "specific",
                Organization := "", SpecificRepositories := [],
                ExcludedRepositories := [], TimeWindow := 24,
                DebugLogging := false }
            RepoVisibility :=
              { Enabled := true, RepoVisibility := "all",
                Organizations := [], CheckWindow := 24 } } }
      rfl rfl).1 rfl

/-- C10: whenever `checkRepository` returns a result with a non-nil
error (malformed repository string, pull-request fetch failure, or
review fetch failure), the result's unapproved-PR list is empty: the
accumulated list is attached only on fully successful completion. -/
theorem checkRepository_error_no_partial (repository : List Char)
    (now timeWindow : Int)
    (pages : List (Except String (List PRChecker.PullRequest)))
    (reviewsOf : Nat → Except String (List PRChecker.Review))
    (h : (PRChecker.checkRepository repository now timeWindow pages reviewsOf).Error ≠
      none) :
    (PRChecker.checkRepository repository now timeWindow pages reviewsOf).UnapprovedPRs =
      [] := by
  unfold PRChecker.checkRepository at h ⊢
  rcases hparse : Common.ParseRepository repository with ⟨owner, repo, ok⟩
  cases ok
  · rfl
  · dsimp only at h ⊢
    rcases hscan : PRChecker.scanPages reviewsOf (now - timeWindow) pages
        PRChecker.initialScanState with ⟨st, err⟩
    rw [hparse] at h
    dsimp only at h
    rw [hscan] at h
    cases err
    · exact absurd rfl h
    · rfl

/-- Witness: a malformed repository string (no "/") yields an error
result with an empty unapproved-PR list. -/
theorem checkRepository_error_no_partial_witness :
    (PRChecker.checkRepository ['x'] 0 24 []
        (fun _ => Except.ok [])).UnapprovedPRs = [] :=
  checkRepository_error_no_partial ['x'] 0 24 [] (fun _ => Except.ok [])
    (by decide)

/-- C7: in the repository-set resolver, mode "specific" scans exactly
the configured explicit list (the exclusion list is not applied — it
does not occur in the result); modes all/public-only/private-only fetch
the candidate list (organization-scoped when an organization is named,
user-scoped otherwise) and drop every repository whose full "owner/name"
identifier is in the exclusion set; a fetch error yields exactly one
error-bearing result and no partial repository list. -/
theorem monitor_repository_resolution :
    (∀ (specific : List (List Char)) (organization : List Char)
       (excluded : List (List Char))
       (orgR userR : Except String (List (List Char)))
       (check : List Char → PRChecker.Result),
       PRChecker.MonitorWithService true "specific" specific organization
         excluded orgR userR check = specific.map check) ∧
    (∀ (v : String) (specific : List (List Char)) (organization : List Char)
       (excluded : List (List Char)) (repos : List (List Char))
       (orgR userR : Except String (List (List Char)))
       (check : List Char → PRChecker.Result),
       (v = "all" ∨ v = "public-only" ∨ v = "private-only") →
       (if organization ≠ [] then orgR else userR) = Except.ok repos →
       PRChecker.MonitorWithService true v specific organization excluded
         orgR userR check =
         (repos.filter (fun r => !(excluded.contains r))).map check) ∧
    (∀ (v : String) (specific : List (List Char)) (organization : List Char)
       (excluded : List (List Char)) (e : String)
       (orgR userR : Except String (List (List Char)))
       (check : List Char → PRChecker.Result),
       (v = "all" ∨ v = "public-only" ∨ v = "private-only") →
       (if organization ≠ [] then orgR else userR) = Except.error e →
       ∃ r0 : PRChecker.Result,
         PRChecker.MonitorWithService true v specific organization excluded
           orgR userR check = [r0] ∧
         r0.Error.isSome = true ∧ r0.UnapprovedPRs = []) := by
  refine ⟨?_, ?_, ?_⟩
  · intro specific organization excluded orgR userR check
    rw [PRChecker.MonitorWithService]
    rw [if_neg (by decide : ¬ (true = false))]
    rw [if_pos rfl]
  · intro v specific organization excluded repos orgR userR check hv hfetch
    have hnsp : ¬ v = "specific" := by
      rcases hv with rfl | rfl | rfl <;> decide
    rw [PRChecker.MonitorWithService]
    rw [if_neg (by decide : ¬ (true = false))]
    rw [if_neg hnsp]
    rw [if_pos hv]
    rw [hfetch]
  · intro v specific organization excluded e orgR userR check hv hfetch
    have hnsp : ¬ v = "specific" := by
      rcases hv with rfl | rfl | rfl <;> decide
    rw [PRChecker.MonitorWithService]
    rw [if_neg (by decide : ¬ (true = false))]
    rw [if_neg hnsp]
    rw [if_pos hv]
    rw [hfetch]
    exact ⟨_, rfl, rfl, rfl⟩

/-- Witness for the resolver claim: mode "all" with organization "o",
candidate list [a, x] and exclusion set containing x scans exactly the
filtered list. -/
theorem monitor_repository_resolution_witness :
    PRChecker.MonitorWithService true "all" [] ['o'] [['x']]
      (Except.ok [['a'], ['x']]) (Except.error "nope")
      (fun r => ⟨r, [], none⟩) =
      ([['a'], ['x']].filter
        (fun r => !(([['x']] : List (List Char)).contains r))).map
        (fun r => ⟨r, [], none⟩) :=
  monitor_repository_resolution.2.1 "all" [] ['o'] [['x']] [['a'], ['x']]
    (Except.ok [['a'], ['x']]) (Except.error "nope") (fun r => ⟨r, [], none⟩)
    (Or.inl rfl) rfl

/-- C8: in the visibility-change scanner, a listed (currently public)
repository created within the check window is a finding immediately and
its name is absent from the event-fetch observations; a repository
created before the cutoff has its events fetched and is a finding iff
`wasRecentlyMadePublic` holds of them; and the event scan of
`wasRecentlyMadePublic` returns, for any event list split as
`pre ++ old :: post` with every event of `pre` in the window and `old`
older than the cutoff, exactly whether a "PublicEvent" occurs in `pre` —
independently of `post`, i.e. scanning stops at the first event older
than the cutoff. -/
theorem visibility_change_classification :
    (∀ (org : List Char) (cutoff : Int)
       (eventsOf : List Char → Except String (List RepoVisibility.Event))
       (repos : List RepoVisibility.Repo),
       RepoVisibility.CheckOrganization org cutoff (Except.ok repos) eventsOf =
         Except.ok (RepoVisibility.classifyRepos org cutoff eventsOf repos)) ∧
    (∀ (org : List Char) (cutoff : Int)
       (eventsOf : List Char → Except String (List RepoVisibility.Event))
       (repo : RepoVisibility.Repo) (rest : List RepoVisibility.Repo) (c : Int),
       repo.createdAt = some c → ¬ c < cutoff →
       RepoVisibility.classifyRepos org cutoff eventsOf (repo :: rest) =
         ((org ++ '/' :: repo.name) ::
            (RepoVisibility.classifyRepos org cutoff eventsOf rest).1,
          (RepoVisibility.classifyRepos org cutoff eventsOf rest).2)) ∧
    (∀ (org : List Char) (cutoff : Int)
       (eventsOf : List Char → Except String (List RepoVisibility.Event))
       (repo : RepoVisibility.Repo) (rest : List RepoVisibility.Repo)
       (c : Int) (evs : List RepoVisibility.Event),
       repo.createdAt = some c → c < cutoff →
       eventsOf repo.name = Except.ok evs →
       RepoVisibility.classifyRepos org cutoff eventsOf (repo :: rest) =
         ((if RepoVisibility.wasRecentlyMadePublic cutoff evs then
             (org ++ '/' :: repo.name) ::
               (RepoVisibility.classifyRepos org cutoff eventsOf rest).1
           else (RepoVisibility.classifyRepos org cutoff eventsOf rest).1),
          repo.name ::
            (RepoVisibility.classifyRepos org cutoff eventsOf rest).2)) ∧
    (∀ (cutoff : Int) (pre : List RepoVisibility.Event)
       (old : RepoVisibility.Event) (post : List RepoVisibility.Event)
       (t : Int),
       (∀ ev ∈ pre, RepoVisibility.eventInWindow cutoff ev = true) →
       old.createdAt = some t → t < cutoff →
       RepoVisibility.wasRecentlyMadePublic cutoff (pre ++ old :: post) =
         pre.any (fun ev => decide (ev.type = "PublicEvent"))) := by
  refine ⟨?_, ?_, ?_, ?_⟩
  · intro org cutoff eventsOf repos
    rfl
  · intro org cutoff eventsOf repo rest c hc hlt
    have hrec : RepoVisibility.repoIsRecent cutoff repo = true := by
      unfold RepoVisibility.repoIsRecent
      rw [hc]
      simp [hlt]
    rw [RepoVisibility.classifyRepos]
    rw [if_pos hrec]
  · intro org cutoff eventsOf repo rest c evs hc hlt hev
    have hrec : RepoVisibility.repoIsRecent cutoff repo = false := by
      unfold RepoVisibility.repoIsRecent
      rw [hc]
      simp [hlt]
    rw [RepoVisibility.classifyRepos]
    rw [if_neg (by simp [hrec])]
    rw [hev]
    dsimp only
    by_cases hw : RepoVisibility.wasRecentlyMadePublic cutoff evs = true
    · rw [if_pos hw, if_pos hw]
    · rw [if_neg hw, if_neg hw]
  · intro cutoff pre old post t hpre hold hlt
    exact RepoVisibility.wasRecentlyMadePublic_stops cutoff pre old post t
      hpre hold hlt

/-- Witness for the visibility claim: a repository created at the cutoff
instant (inside the window) in organization "o" is an immediate
finding. -/
theorem visibility_change_classification_witness :
    RepoVisibility.classifyRepos ['o'] 0 (fun _ => Except.ok [])
        [⟨['r'], some 0⟩] =
      ((['o'] ++ '/' :: ['r']) ::
         (RepoVisibility.classifyRepos ['o'] 0 (fun _ => Except.ok []) []).1,
       (RepoVisibility.classifyRepos ['o'] 0 (fun _ => Except.ok []) []).2) :=
  visibility_change_classification.2.1 ['o'] 0 (fun _ => Except.ok [])
    ⟨['r'], some 0⟩ [] 0 rfl (by decide)

end GitMonitorClaims
